import Mathlib

/-!
Verification development for the az-acme2keyvault certificate renewal
functions.  The TypeScript sources are embedded shallowly:

* `shared/certRequest` (the `certKey` variant): the JSON Type Definition
  schema compiled by ajv and the `fromJson` entry point, modelled over an
  inductive `Json` value type;
* `shared/cert`: the pure `isOldEnough` renewal-clock predicate, with
  millisecond timestamps as integers and the day arithmetic over `ℚ`;
* `AcmeCertList/index`: `shouldRenewCert` and the blob-listing entry point
  `azureFunc`, with the Key Vault metadata lookup as an oracle function;
* `shared/acme2keyvault`: `authzToRelativeDomain` (JavaScript
  `String.replace` with a string pattern, i.e. first occurrence only),
  the two DNS record operations, and the per-authorization challenge
  procedure with its try/finally cleanup, modelled as explicit control
  flow over the outcomes of each awaited step;
* the durable-functions orchestrator: fan-out over the selected requests
  followed by a join-all barrier with aggregate-error semantics.
-/

namespace AzAcme2KeyVault

/-! ## JSON values and the certificate request schema (shared/certRequest) -/

/-- Shallow model of a parsed JSON document. Numbers are restricted to the
integers, which covers every value the `int16` schema type can accept. -/
inductive Json where
  | null
  | bool (b : Bool)
  | num (n : Int)
  | str (s : String)
  | arr (elems : List Json)
  | obj (fields : List (String × Json))

/-- Fields of a JSON object; `none` on any non-object value. -/
def Json.objFields : Json → Option (List (String × Json))
  | .obj fields => some fields
  | _ => none

/-- Look up a key in a JSON object. -/
def Json.getField (j : Json) (key : String) : Option Json :=
  match j with
  | .obj fields => (fields.find? (fun f => f.1 == key)).map (fun f => f.2)
  | _ => none

/-- JTD `string` type: accept exactly JSON strings. -/
def Json.asStr : Json → Option String
  | .str s => some s
  | _ => none

/-- JTD `int16` type: accept integers in the range -32768..32767. -/
def Json.asInt16 : Json → Option Int
  | .num n => if -32768 ≤ n ∧ n ≤ 32767 then some n else none
  | _ => none

/-- JTD `boolean` type. -/
def Json.asBool : Json → Option Bool
  | .bool b => some b
  | _ => none

/-- JTD `elements: \x7btype: string\x7d`: a JSON array of strings. -/
def Json.asStrList : Json → Option (List String)
  | .arr elems => elems.mapM Json.asStr
  | _ => none

/-- Options for Azure services (interface `AzureOptions`). -/
structure AzureOptions where
  subscriptionId : String
  dnsZoneResourceGroup : String
  dnsZone : String
  keyVaultName : String
  keyVaultCertName : String
deriving Repr, DecidableEq

/-- Options for ACME directory interactions (interface `AcmeOptions`). -/
structure AcmeOptions where
  contactEmail : String
  directoryUrl : String
deriving Repr, DecidableEq

/-- Options for the certificate key (interface `CertKeyOptions`). -/
structure CertKeyOptions where
  commonName : String
  subject : Option String
  alternativeNames : Option (List String)
  keySize : Option Int
  exportable : Option Bool
deriving Repr, DecidableEq

/-- All options in one package (interface `CertRequest`). -/
structure CertRequest where
  azure : AzureOptions
  acme : AcmeOptions
  certKey : CertKeyOptions
deriving Repr, DecidableEq

/-- Parse a JTD optional property: absence is fine, presence must
type-check. -/
def parseOptionalField (j : Json) (key : String) (read : Json → Option α) :
    Option (Option α) :=
  match j.getField key with
  | none => some none
  | some v => (read v).map some

/-- JTD schema for the `azure` property: five required strings, no
additional properties. -/
def parseAzure (j : Json) : Option AzureOptions := do
  let fields ← j.objFields
  guard (fields.all (fun f =>
    f.1 == "subscriptionId" || f.1 == "dnsZoneResourceGroup" ||
    f.1 == "dnsZone" || f.1 == "keyVaultName" || f.1 == "keyVaultCertName"))
  let subscriptionId ← (j.getField "subscriptionId").bind Json.asStr
  let dnsZoneResourceGroup ← (j.getField "dnsZoneResourceGroup").bind Json.asStr
  let dnsZone ← (j.getField "dnsZone").bind Json.asStr
  let keyVaultName ← (j.getField "keyVaultName").bind Json.asStr
  let keyVaultCertName ← (j.getField "keyVaultCertName").bind Json.asStr
  pure ⟨subscriptionId, dnsZoneResourceGroup, dnsZone, keyVaultName, keyVaultCertName⟩

/-- JTD schema for the `acme` property: two required strings. -/
def parseAcme (j : Json) : Option AcmeOptions := do
  let fields ← j.objFields
  guard (fields.all (fun f => f.1 == "contactEmail" || f.1 == "directoryUrl"))
  let contactEmail ← (j.getField "contactEmail").bind Json.asStr
  let directoryUrl ← (j.getField "directoryUrl").bind Json.asStr
  pure ⟨contactEmail, directoryUrl⟩

/-- JTD schema for the `certKey` property: required `commonName` string,
optional `subject`, `keySize` (int16), `alternativeNames` (string array)
and `exportable` (boolean). -/
def parseCertKey (j : Json) : Option CertKeyOptions := do
  let fields ← j.objFields
  guard (fields.all (fun f =>
    f.1 == "commonName" || f.1 == "subject" || f.1 == "keySize" ||
    f.1 == "alternativeNames" || f.1 == "exportable"))
  let commonName ← (j.getField "commonName").bind Json.asStr
  let subject ← parseOptionalField j "subject" Json.asStr
  let keySize ← parseOptionalField j "keySize" Json.asInt16
  let alternativeNames ← parseOptionalField j "alternativeNames" Json.asStrList
  let exportable ← parseOptionalField j "exportable" Json.asBool
  pure ⟨commonName, subject, alternativeNames, keySize, exportable⟩

/-- The compiled JTD schema check for a whole `CertRequest` document
(`jsonParser` in shared/certRequest). -/
def jsonParser (j : Json) : Option CertRequest := do
  let fields ← j.objFields
  guard (fields.all (fun f => f.1 == "azure" || f.1 == "acme" || f.1 == "certKey"))
  let azure ← (j.getField "azure").bind parseAzure
  let acme ← (j.getField "acme").bind parseAcme
  let certKey ← (j.getField "certKey").bind parseCertKey
  pure ⟨azure, acme, certKey⟩

/-- Parse options from a given JSON document (`fromJson`): schema failure
is turned into a thrown error. -/
def fromJson (j : Json) : Except String CertRequest :=
  match jsonParser j with
  | none => .error "Failed to parse JSON to Options"
  | some options => .ok options

/-! ## Renewal clock (shared/cert) -/

/-- Check if a timestamp is old enough (`isOldEnough`). Timestamps are in
milliseconds as produced by `Date.getTime`; the division into fractional
days is exact rational arithmetic. -/
def isOldEnough (now expiryDate : Int) (thresholdDays : ℚ) : Bool :=
  let timeUntilExpiration : Int := expiryDate - now
  let daysUntilExpiration : ℚ := (timeUntilExpiration : ℚ) / (1000 * 60 * 60 * 24)
  decide (daysUntilExpiration ≤ thresholdDays)

/-! ## Renewal selector (AcmeCertList/index) -/

/-- The store-side certificate metadata read by the selector
(`certDetails.properties` in the source). -/
structure CertMetadata where
  enabled : Bool
  expiresOn : Int
deriving Repr, DecidableEq

/-- A stored request document: blob name plus its (already lexed) JSON
content. -/
structure Blob where
  name : String
  content : Json

/-- JavaScript `s.endsWith(pat)`: `pat` is a suffix of `s`. -/
def strEndsWith (s pat : String) : Bool :=
  List.isSuffixOf pat.data s.data

/-- Check if the certificate should be renewed (`shouldRenewCert`). -/
def shouldRenewCert (certDetails : CertMetadata) (today : Int)
    (renewDaysThreshold : ℚ) : Bool :=
  certDetails.enabled && isOldEnough today certDetails.expiresOn renewDaysThreshold

/-- The AcmeCertList entry point (`azureFunc`): walk the stored blobs,
take the ones named `*.json`, parse each into a `CertRequest` (a parse
failure throws out of the whole loop), fetch the Key Vault metadata
(`store` returns `none` for a 404), and collect the requests whose
certificate exists and satisfies `shouldRenewCert`. -/
def azureFunc (store : AzureOptions → Option CertMetadata) (today : Int)
    (renewDaysThreshold : ℚ) : List Blob → Except String (List CertRequest)
  | [] => .ok []
  | blob :: rest =>
    if strEndsWith blob.name ".json" then
      match fromJson blob.content with
      | .error e => .error e
      | .ok certRequest =>
        match azureFunc store today renewDaysThreshold rest with
        | .error e => .error e
        | .ok certRequests =>
          .ok (match store certRequest.azure with
            | none => certRequests
            | some certDetails =>
              if shouldRenewCert certDetails today renewDaysThreshold
              then certRequest :: certRequests
              else certRequests)
    else azureFunc store today renewDaysThreshold rest

/-- The per-request selection decision implemented by the loop body of
`azureFunc`: a request is kept exactly when its certificate metadata is
found and `shouldRenewCert` holds for it. -/
def includeDecision (store : AzureOptions → Option CertMetadata) (today : Int)
    (renewDaysThreshold : ℚ) (certRequest : CertRequest) : Bool :=
  match store certRequest.azure with
  | none => false
  | some certDetails => shouldRenewCert certDetails today renewDaysThreshold

/-! ## Challenge responder and order process (shared/acme2keyvault) -/

/-- Replace the first occurrence of `pat` in a character list, the
semantics of JavaScript `String.replace` with a string pattern. -/
def replaceFirstList (pat rep : List Char) : List Char → List Char
  | [] => if pat.isEmpty then rep else []
  | c :: rest =>
    if List.isPrefixOf pat (c :: rest) then rep ++ (c :: rest).drop pat.length
    else c :: replaceFirstList pat rep rest

/-- JavaScript `s.replace(pat, rep)` for a string pattern: only the first
occurrence is replaced. -/
def strReplaceFirst (s pat rep : String) : String :=
  String.mk (replaceFirstList pat.data rep.data s.data)

/-- An ACME identifier (`authz.identifier`). -/
structure AcmeIdentifier where
  type : String
  value : String
deriving Repr, DecidableEq

/-- One offered challenge of an authorization. -/
structure Challenge where
  type : String
deriving Repr, DecidableEq

/-- An ACME authorization: a domain identifier plus its offered
challenges. -/
structure Authorization where
  identifier : AcmeIdentifier
  challenges : List Challenge
deriving Repr, DecidableEq

/-- Convert the ACME authorization detail to a validation domain in Azure
DNS relative format (`authzToRelativeDomain`). -/
def authzToRelativeDomain (dnsZone : String) (authz : Authorization) : String :=
  let relativeDomain := strReplaceFirst authz.identifier.value ("." ++ dnsZone) ""
  "_acme-challenge." ++ relativeDomain

/-- A DNS record-set operation issued against the zone. -/
inductive DnsOp where
  | upsertTxt (recordName : String) (value : String) (ttl : Int)
  | deleteTxt (recordName : String)
deriving Repr, DecidableEq

/-- The record name an operation addresses. -/
def DnsOp.recordName : DnsOp → String
  | .upsertTxt n _ _ => n
  | .deleteTxt n => n

/-- Create a record set in Azure DNS for the given ACME DNS challenge
(`azureDnsCreateChallenge`): a 30-second TXT record holding the
key-authorization as its sole value. -/
def azureDnsCreateChallenge (dnsZone : String) (authz : Authorization)
    (keyAuthorization : String) : DnsOp :=
  .upsertTxt (authzToRelativeDomain dnsZone authz) keyAuthorization 30

/-- Delete the ACME DNS challenge from Azure DNS
(`azureDnsRemoveChallenge`). -/
def azureDnsRemoveChallenge (dnsZone : String) (authz : Authorization) : DnsOp :=
  .deleteTxt (authzToRelativeDomain dnsZone authz)

/-- The identifiers submitted with `createOrder`: the common name followed
by the alternative names (absent list treated as empty). -/
def orderIdentifiers (certRequest : CertRequest) : List String :=
  certRequest.certKey.commonName :: certRequest.certKey.alternativeNames.getD []

/-- Outcomes of the awaited network calls made while satisfying one
authorization; each field is the result the corresponding call would
produce if reached. -/
structure AuthzStepEnv where
  keyAuth : Except String String
  present : Except String Unit
  verify : Except String Unit
  complete : Except String Unit
  waitValid : Except String Unit
  cleanup : Except String Unit

/-- Observable trace of processing one authorization: the outcome
propagated to the surrounding `Promise.all`, and how many times the DNS
record was presented and cleaned up. -/
structure AuthzTrace where
  result : Except String Unit
  presentCalls : Nat
  cleanupCalls : Nat
deriving Repr

/-- Body of the try block: present the record, then verify, complete and
wait for valid status; the first failing step throws. The second
component counts the `present` calls made (the call is counted even when
it itself throws). -/
def challengeBody (env : AuthzStepEnv) : Except String Unit × Nat :=
  match env.present with
  | .error e => (.error e, 1)
  | .ok _ =>
    match env.verify with
    | .error e => (.error e, 1)
    | .ok _ =>
      match env.complete with
      | .error e => (.error e, 1)
      | .ok _ =>
        match env.waitValid with
        | .error e => (.error e, 1)
        | .ok _ => (.ok (), 1)

/-- The per-authorization procedure inside `orderCertificate`: find the
DNS-01 challenge (anything else is a fatal error before any DNS call),
compute the key-authorization (outside the try block), then run the try
block with a finally clause that attempts cleanup exactly once and
swallows a cleanup failure. -/
def processAuthz (env : AuthzStepEnv) (authz : Authorization) : AuthzTrace :=
  match authz.challenges.find? (fun c => c.type == "dns-01") with
  | none => ⟨.error ("No DNS challenge found for " ++ authz.identifier.value), 0, 0⟩
  | some _ =>
    match env.keyAuth with
    | .error e => ⟨.error e, 0, 0⟩
    | .ok _ =>
      let body := challengeBody env
      ⟨body.1, body.2, 1⟩

/-! ## Renewal coordinator (the durable-functions orchestrator) -/

/-- The failure an activity outcome contributes to the aggregate error,
if any. -/
def errOf : Except String Unit → Option String
  | .error e => some e
  | .ok _ => none

/-- Join-all barrier over activity outcomes (`context.df.Task.all`): every
task runs to completion; if any failed, the barrier throws the aggregated
failures, otherwise it succeeds. -/
def taskAll (outcomes : List (Except String Unit)) : Except (List String) Unit :=
  if (outcomes.filterMap errOf).isEmpty then .ok ()
  else .error (outcomes.filterMap errOf)

/-- Observable result of one orchestration run: the terminal outcome of
every dispatched activity, and the orchestration's own result. -/
structure OrchRun where
  outcomes : List (Except String Unit)
  result : Except (List String) Unit
deriving Repr

/-- The orchestrator entry point: with no selected requests complete
immediately as a no-op; otherwise dispatch one `Acme2KeyVaultActivity`
task per request and yield on the join-all barrier, whose aggregate error
(if any) propagates uncaught as the orchestration's failure. -/
def orchestrator {α : Type} (certRequests : List α)
    (runActivity : α → Except String Unit) : OrchRun :=
  if certRequests.length = 0 then ⟨[], .ok ()⟩
  else
    let outcomes := certRequests.map runActivity
    ⟨outcomes, taskAll outcomes⟩

/-! ## Concrete example inputs used by the witnesses and counterexamples -/

/-- A well-formed request document. -/
def goodDoc : Json := .obj [
  ("azure", .obj [
    ("subscriptionId", .str "sub-1"),
    ("dnsZoneResourceGroup", .str "rg-dns"),
    ("dnsZone", .str "example.org"),
    ("keyVaultName", .str "kv"),
    ("keyVaultCertName", .str "good-cert")]),
  ("acme", .obj [
    ("contactEmail", .str "admin@example.org"),
    ("directoryUrl", .str "https://acme.example/directory")]),
  ("certKey", .obj [
    ("commonName", .str "good.example.org")])]

/-- The request value `goodDoc` parses to. -/
def goodReq : CertRequest :=
  ⟨⟨"sub-1", "rg-dns", "example.org", "kv", "good-cert"⟩,
   ⟨"admin@example.org", "https://acme.example/directory"⟩,
   ⟨"good.example.org", none, none, none, none⟩⟩

/-- A schema-conformant document that violates every clause of the spec's
data-model invariant: empty common name, non-positive key size, and an
alternative name that is no DNS name and equals the common name. -/
def invalidInvariantDoc : Json := .obj [
  ("azure", .obj [
    ("subscriptionId", .str "sub-1"),
    ("dnsZoneResourceGroup", .str "rg-dns"),
    ("dnsZone", .str "example.org"),
    ("keyVaultName", .str "kv"),
    ("keyVaultCertName", .str "bad-cert")]),
  ("acme", .obj [
    ("contactEmail", .str "admin@example.org"),
    ("directoryUrl", .str "https://acme.example/directory")]),
  ("certKey", .obj [
    ("commonName", .str ""),
    ("keySize", .num (-5)),
    ("alternativeNames", .arr [.str ""])])]

/-- The request value `invalidInvariantDoc` parses to. -/
def invalidInvariantReq : CertRequest :=
  ⟨⟨"sub-1", "rg-dns", "example.org", "kv", "bad-cert"⟩,
   ⟨"admin@example.org", "https://acme.example/directory"⟩,
   ⟨"", none, some [""], some (-5), none⟩⟩

/-- Blob holding the well-formed document. -/
def goodBlob : Blob := ⟨"good.json", goodDoc⟩

/-- Blob whose content fails to parse as a `CertRequest`. -/
def badBlob : Blob := ⟨"bad.json", Json.null⟩

/-- Metadata oracle: every certificate exists, is enabled, and expired at
epoch 0, so it is due at any non-negative threshold from epoch 0. -/
def storeDue : AzureOptions → Option CertMetadata := fun _ => some ⟨true, 0⟩

/-- Metadata oracle: every metadata read reports not-found. -/
def storeMissing : AzureOptions → Option CertMetadata := fun _ => none

/-- Metadata oracle: every certificate exists but is disabled, and expired
at epoch 0. -/
def storeDisabled : AzureOptions → Option CertMetadata := fun _ => some ⟨false, 0⟩

/-- Example activity outcomes for the orchestrator: request 0 fails, every
other request succeeds. -/
def exampleActivity : Nat → Except String Unit :=
  fun n => if n = 0 then .error "boom" else .ok ()

/-- Step outcomes where computing the key-authorization throws and every
other call would succeed. -/
def envKeyAuthFails : AuthzStepEnv :=
  ⟨.error "key authorization failed", .ok (), .ok (), .ok (), .ok (), .ok ()⟩

/-- Step outcomes where every call succeeds. -/
def envAllOk : AuthzStepEnv :=
  ⟨.ok "token.thumbprint", .ok (), .ok (), .ok (), .ok (), .ok ()⟩

/-- An authorization offering a DNS-01 challenge. -/
def dnsAuthz : Authorization := ⟨⟨"dns", "www.example.org"⟩, [⟨"dns-01"⟩]⟩

/-- An authorization offering only an HTTP-01 challenge. -/
def httpOnlyAuthz : Authorization := ⟨⟨"dns", "www.example.org"⟩, [⟨"http-01"⟩]⟩

/-- The end-to-end scenario request: common name `example.org` with the
alternative name `www.example.org`, managed in zone `example.org`. -/
def scenarioReq : CertRequest :=
  ⟨⟨"sub-1", "rg-dns", "example.org", "kv", "scenario-cert"⟩,
   ⟨"admin@example.org", "https://acme.example/directory"⟩,
   ⟨"example.org", none, some ["www.example.org"], none, none⟩⟩

/-- Modelled from the spec: the record-name derivation as the spec words
it — strip the zone as an anchored *suffix* of the identifier and add the
`_acme-challenge.` label. Used only to compare the spec's wording with the
source's `authzToRelativeDomain`. -/
def specSuffixStripRecordName (dnsZone : String) (authz : Authorization) : String :=
  let pat := ("." ++ dnsZone).data
  let s := authz.identifier.value.data
  let stripped := if List.isSuffixOf pat s then s.take (s.length - pat.length) else s
  "_acme-challenge." ++ String.mk stripped

/-! ## Helper lemmas -/

/-- Evaluating the challenge try block does not depend on the key-auth and
cleanup outcomes. -/
theorem challengeBody_ext (e₁ e₂ : AuthzStepEnv) (hp : e₁.present = e₂.present)
    (hv : e₁.verify = e₂.verify) (hc : e₁.complete = e₂.complete)
    (hw : e₁.waitValid = e₂.waitValid) : challengeBody e₁ = challengeBody e₂ := by
  unfold challengeBody
  rw [hp, hv, hc, hw]

/-- The join-all barrier succeeds exactly when every outcome is a
success. -/
theorem taskAll_eq_ok_iff (outcomes : List (Except String Unit)) :
    taskAll outcomes = Except.ok () ↔ ∀ o ∈ outcomes, o = Except.ok () := by
  have key : (outcomes.filterMap errOf).isEmpty = true ↔
      ∀ o ∈ outcomes, o = Except.ok () := by
    rw [List.isEmpty_iff, List.filterMap_eq_nil_iff]
    constructor
    · intro h o ho
      have he := h o ho
      cases o with
      | ok v => rfl
      | error e => simp [errOf] at he
    · intro h o ho
      rw [h o ho]
      rfl
  unfold taskAll
  by_cases hif : (outcomes.filterMap errOf).isEmpty = true
  · rw [if_pos hif]
    exact iff_of_true rfl (key.mp hif)
  · rw [if_neg hif]
    constructor
    · intro hcon
      exact absurd hcon (by simp)
    · intro h
      exact absurd (key.mpr h) hif

/-- One-step unfolding of the listing loop on a non-empty catalogue. -/
theorem azureFunc_cons (store : AzureOptions → Option CertMetadata) (today : Int)
    (renewDaysThreshold : ℚ) (b : Blob) (rest : List Blob) :
    azureFunc store today renewDaysThreshold (b :: rest) =
      if strEndsWith b.name ".json" then
        match fromJson b.content with
        | .error e => .error e
        | .ok certRequest =>
          match azureFunc store today renewDaysThreshold rest with
          | .error e => .error e
          | .ok certRequests =>
            .ok (match store certRequest.azure with
              | none => certRequests
              | some certDetails =>
                if shouldRenewCert certDetails today renewDaysThreshold
                then certRequest :: certRequests
                else certRequests)
      else azureFunc store today renewDaysThreshold rest := rfl

/-- Replacing a pattern strictly longer than the subject changes
nothing. -/
theorem replaceFirstList_of_longer (pat rep s : List Char) (h : s.length < pat.length) :
    replaceFirstList pat rep s = s := by
  cases pat with
  | nil => simp at h
  | cons p ps =>
    induction s with
    | nil => rfl
    | cons c rest ih =>
      have hnp : ¬ (List.isPrefixOf (p :: ps) (c :: rest) = true) := by
        intro hpre
        have hle : (p :: ps).length ≤ (c :: rest).length :=
          (List.isPrefixOf_iff_prefix.mp hpre).length_le
        exact absurd h (Nat.not_lt.mpr hle)
      unfold replaceFirstList
      rw [if_neg hnp, ih (Nat.lt_of_succ_lt h)]

/-- The int16 schema type only accepts integers within its range. -/
theorem asInt16_bounds (v : Json) (k : Int) (h : Json.asInt16 v = some k) :
    -32768 ≤ k ∧ k ≤ 32767 := by
  cases v with
  | num n =>
    simp only [Json.asInt16] at h
    split at h
    · injection h with h'
      subst h'
      assumption
    · cases h
  | null => cases h
  | bool b => cases h
  | str s => cases h
  | arr xs => cases h
  | obj fs => cases h

/-- A present optional field was read by its type reader. -/
theorem parseOptionalField_some (j : Json) (key : String) (read : Json → Option α)
    (b : α) (h : parseOptionalField j key read = some (some b)) :
    ∃ v, j.getField key = some v ∧ read v = some b := by
  unfold parseOptionalField at h
  cases hg : j.getField key with
  | none =>
    simp only [hg] at h
    cases h
  | some v =>
    simp only [hg] at h
    cases hr : read v with
    | none => simp [hr] at h
    | some b' =>
      simp [hr] at h
      exact ⟨v, rfl, by rw [hr, h]⟩

/-- A key size produced by the certKey schema lies in the int16 range. -/
theorem parseCertKey_keySize (j : Json) (ck : CertKeyOptions) (k : Int)
    (h : parseCertKey j = some ck) (hk : ck.keySize = some k) :
    -32768 ≤ k ∧ k ≤ 32767 := by
  rw [parseCertKey] at h
  simp only [Bind.bind, Option.bind_eq_some, Option.pure_def, Option.some.injEq] at h
  obtain ⟨fields, hfields, u, hguard, commonName, hcn, subject, hsub, keySize, hks,
    alternativeNames, halt, exportable, hexp, hck⟩ := h
  subst hck
  have hk' : keySize = some k := hk
  rw [hk'] at hks
  obtain ⟨v, hv, hvi⟩ := parseOptionalField_some j "keySize" Json.asInt16 k hks
  exact asInt16_bounds v k hvi

/-! ## Claim theorems -/

/-- C1 (amended): the renewal selector places a request on the work list
exactly when the metadata read finds the certificate AND it is enabled AND
the renewal clock says it is due — a request whose certificate is missing
(not-found) is skipped, and a disabled certificate is never selected. The
successful output of the listing equals the parsed `.json` documents
filtered by that per-request decision. -/
theorem renewalSelection_characterization (store : AzureOptions → Option CertMetadata)
    (today : Int) (renewDaysThreshold : ℚ) (blobs : List Blob) (out : List CertRequest)
    (h : azureFunc store today renewDaysThreshold blobs = Except.ok out) :
    out = ((blobs.filter (fun b => strEndsWith b.name ".json")).filterMap
            (fun b => (fromJson b.content).toOption)).filter
          (includeDecision store today renewDaysThreshold) := by
  induction blobs generalizing out with
  | nil =>
    injection h with h'
    rw [← h']
    rfl
  | cons b rest ih =>
    rw [azureFunc_cons] at h
    by_cases hb : strEndsWith b.name ".json"
    · rw [if_pos hb] at h
      have hfil : List.filter (fun x => strEndsWith x.name ".json") (b :: rest) =
          b :: List.filter (fun x => strEndsWith x.name ".json") rest :=
        List.filter_cons_of_pos hb
      rw [hfil, List.filterMap_cons]
      cases hp : fromJson b.content with
      | error e =>
        rw [hp] at h
        exact absurd h (by simp)
      | ok req =>
        rw [hp] at h
        cases hr : azureFunc store today renewDaysThreshold rest with
        | error e =>
          rw [hr] at h
          exact absurd h (by simp)
        | ok outs =>
          rw [hr] at h
          injection h with h'
          rw [← h', ih outs hr]
          simp only [Except.toOption]
          rw [List.filter_cons]
          cases hs : store req.azure with
          | none => simp [includeDecision, hs]
          | some certDetails =>
            by_cases hren : shouldRenewCert certDetails today renewDaysThreshold
            · simp [includeDecision, hs, hren]
            · simp [includeDecision, hs, hren]
    · rw [if_neg hb] at h
      have hfil : List.filter (fun x => strEndsWith x.name ".json") (b :: rest) =
          List.filter (fun x => strEndsWith x.name ".json") rest :=
        List.filter_cons_of_neg hb
      rw [hfil]
      exact ih out h

/-- Witness for C1: a singleton catalogue whose certificate exists but is
disabled yields the empty selection, matching the filter
characterization. -/
theorem renewalSelection_witness :
    ([] : List CertRequest) =
      (([goodBlob].filter (fun b => strEndsWith b.name ".json")).filterMap
        (fun b => (fromJson b.content).toOption)).filter
      (includeDecision storeDisabled 0 30) :=
  renewalSelection_characterization storeDisabled 0 30 [goodBlob] [] rfl

/-- Counterexample to C1 as stated: a parseable request whose metadata
read reports not-found produces the empty work list, although the claimed
predicate `certificateMissing OR ...` holds for it and would include it. -/
theorem missingCert_not_selected :
    azureFunc storeMissing 0 30 [goodBlob] = Except.ok [] ∧
    fromJson goodBlob.content = Except.ok goodReq ∧
    storeMissing goodReq.azure = none :=
  ⟨rfl, rfl, rfl⟩

/-- C2 (amended): the coordinator dispatches one activity per selected
request, every dispatched activity reaches its own terminal outcome (the
outcome list is exactly the per-request results, so one failure neither
cancels nor blocks the others), and the orchestration completes only after
the join-all barrier — but its own result is a success exactly when every
workflow succeeded: a single failure surfaces as failure of the whole run,
and no success/failure counts are reported. -/
theorem coordinator_barrier_and_failure (α : Type) (certRequests : List α)
    (runActivity : α → Except String Unit) :
    (orchestrator certRequests runActivity).outcomes = certRequests.map runActivity ∧
    ((orchestrator certRequests runActivity).result = Except.ok () ↔
      ∀ r ∈ certRequests, runActivity r = Except.ok ()) := by
  unfold orchestrator
  by_cases h : certRequests.length = 0
  · rw [List.length_eq_zero] at h
    subst h
    simp
  · rw [if_neg h]
    refine ⟨rfl, ?_⟩
    rw [taskAll_eq_ok_iff]
    simp

/-- Counterexample to C2 as stated: in a batch of two, the second workflow
still completes when the first fails, but the orchestration result is the
aggregated error — one workflow failure becomes failure of the whole run,
and the completion carries no per-request counts. -/
theorem coordinator_failure_surfaces :
    orchestrator [0, 1] exampleActivity =
      ⟨[Except.error "boom", Except.ok ()], Except.error ["boom"]⟩ := rfl

/-- C3 (amended): a stored `.json` document that fails to parse into a
`CertificateRequest` aborts the entire enumeration — the listing throws
that parse error and produces no selection at all, regardless of the
remaining documents. -/
theorem parseFailure_abortsListing (store : AzureOptions → Option CertMetadata)
    (today : Int) (renewDaysThreshold : ℚ) (b : Blob) (rest : List Blob) (e : String)
    (hname : strEndsWith b.name ".json" = true)
    (hparse : fromJson b.content = Except.error e) :
    azureFunc store today renewDaysThreshold (b :: rest) = Except.error e := by
  unfold azureFunc
  rw [if_pos hname, hparse]

/-- Witness for C3: the malformed first blob makes the whole listing
throw. -/
theorem parseFailure_abortsListing_witness :
    azureFunc storeMissing 0 30 [badBlob, goodBlob] =
      Except.error "Failed to parse JSON to Options" :=
  parseFailure_abortsListing storeMissing 0 30 badBlob [goodBlob]
    "Failed to parse JSON to Options" rfl rfl

/-- Counterexample to C3 as stated: one malformed document next to one
well-formed document makes the whole enumeration fail — the parse failure
is not contained to the single document and no selection is built from the
document that did parse. -/
theorem parseFailure_not_isolated :
    azureFunc storeMissing 0 30 [badBlob, goodBlob] =
      Except.error "Failed to parse JSON to Options" ∧
    fromJson badBlob.content = Except.error "Failed to parse JSON to Options" ∧
    fromJson goodBlob.content = Except.ok goodReq :=
  ⟨rfl, rfl, rfl⟩

/-- C4 (amended): `fromJson` enforces only the JTD schema, not the
data-model invariant; in particular the one numeric bound it does
guarantee is that a present `keySize` lies within the int16 range. An
empty `commonName`, a non-positive `keySize` and alternative names that
are invalid or equal to the common name are all accepted. -/
theorem fromJson_keySize_int16 (j : Json) (req : CertRequest) (k : Int)
    (h : fromJson j = Except.ok req) (hk : req.certKey.keySize = some k) :
    -32768 ≤ k ∧ k ≤ 32767 := by
  unfold fromJson at h
  cases hp : jsonParser j with
  | none => rw [hp] at h; cases h
  | some options =>
    rw [hp] at h
    injection h with h'
    subst h'
    rw [jsonParser] at hp
    simp only [Bind.bind, Option.bind_eq_some, Option.pure_def, Option.some.injEq] at hp
    obtain ⟨fields, hfields, u, hguard, azure, ha, acme, hac, certKey, hc, hopt⟩ := hp
    obtain ⟨jc, hjc, hpc⟩ := hc
    subst hopt
    exact parseCertKey_keySize jc certKey k hpc hk

/-- Witness for C4: the int16 bound instantiated at the concrete parsed
document with keySize -5. -/
theorem fromJson_keySize_witness : (-32768 : ℤ) ≤ -5 ∧ (-5 : ℤ) ≤ 32767 :=
  fromJson_keySize_int16 invalidInvariantDoc invalidInvariantReq (-5) rfl rfl

/-- Counterexample to C4 as stated: a schema-conformant document with an
empty common name, key size -5, and an alternative name equal to the
(empty) common name is accepted by `fromJson`, violating every clause of
the claimed invariant. -/
theorem fromJson_accepts_invariant_violation :
    fromJson invalidInvariantDoc = Except.ok invalidInvariantReq ∧
    invalidInvariantReq.certKey.commonName = "" ∧
    invalidInvariantReq.certKey.keySize = some (-5) ∧
    invalidInvariantReq.certKey.alternativeNames = some [""] :=
  ⟨rfl, rfl, rfl, rfl⟩

/-- C5 (amended): once the DNS-01 challenge has been selected AND its
key-authorization computed successfully, `cleanup()` is attempted exactly
once on every exit path of the try block (success, verification failure,
or any exception in present/verify/complete/wait), and the outcome of the
cleanup call never changes the result of the authorization — it equals the
try-block result whatever cleanup does. -/
theorem cleanup_exactlyOnce_afterKeyAuth (env : AuthzStepEnv) (authz : Authorization)
    (k : String) (c₁ c₂ : Except String Unit)
    (hch : (authz.challenges.find? (fun c => c.type == "dns-01")).isSome = true)
    (hka : env.keyAuth = Except.ok k) :
    (processAuthz { env with cleanup := c₁ } authz).cleanupCalls = 1 ∧
    (processAuthz { env with cleanup := c₁ } authz).result =
      (processAuthz { env with cleanup := c₂ } authz).result ∧
    (processAuthz { env with cleanup := c₁ } authz).result = (challengeBody env).1 := by
  obtain ⟨ch, hch'⟩ := Option.isSome_iff_exists.mp hch
  simp only [processAuthz, hch', hka]
  refine ⟨trivial, ?_, ?_⟩ <;>
    exact congrArg Prod.fst (challengeBody_ext _ _ rfl rfl rfl rfl)

/-- Witness for C5: with every step succeeding, a failing cleanup is still
counted once and leaves the successful result untouched. -/
theorem cleanup_exactlyOnce_witness :
    (processAuthz { envAllOk with cleanup := Except.error "cleanup failed" } dnsAuthz).cleanupCalls = 1 ∧
    (processAuthz { envAllOk with cleanup := Except.error "cleanup failed" } dnsAuthz).result =
      (processAuthz { envAllOk with cleanup := Except.ok () } dnsAuthz).result ∧
    (processAuthz { envAllOk with cleanup := Except.error "cleanup failed" } dnsAuthz).result =
      (challengeBody envAllOk).1 :=
  cleanup_exactlyOnce_afterKeyAuth envAllOk dnsAuthz "token.thumbprint"
    (Except.error "cleanup failed") (Except.ok ()) rfl rfl

/-- Counterexample to C5 as stated: the DNS-01 challenge is selected
successfully, but an exception in the key-authorization computation (step
b, which the source places outside the try block) exits without any
cleanup call — cleanup is not invoked on this exit path. -/
theorem cleanupSkipped_onKeyAuthFailure :
    (dnsAuthz.challenges.find? (fun c => c.type == "dns-01")).isSome = true ∧
    (processAuthz envKeyAuthFails dnsAuthz).cleanupCalls = 0 ∧
    (processAuthz envKeyAuthFails dnsAuthz).result = Except.error "key authorization failed" :=
  ⟨rfl, rfl, rfl⟩

/-- C6: the renewal clock is due exactly when the gap is at most the
threshold in fractional days; at the boundary `now + thresholdDays` days
it is due, one day past the threshold it is not, and a fractional gap of
29.9 days is due at threshold 30. -/
theorem renewalClock_isDue_boundary (now expiresOn t : ℤ) (ht : 0 ≤ t) :
    (isOldEnough now expiresOn t = true ↔
      ((expiresOn - now : ℤ) : ℚ) ≤ (t : ℚ) * 86400000) ∧
    isOldEnough now (now + t * 86400000) t = true ∧
    isOldEnough now (now + (t + 1) * 86400000) t = false ∧
    isOldEnough now (now + 2583360000) 30 = true := by
  refine ⟨?_, ?_, ?_, ?_⟩
  · simp only [isOldEnough, decide_eq_true_eq]
    rw [div_le_iff₀ (by norm_num : (0:ℚ) < 1000 * 60 * 60 * 24)]
    norm_num
  · simp only [isOldEnough, decide_eq_true_eq]
    push_cast
    rw [div_le_iff₀ (by norm_num : (0:ℚ) < 1000 * 60 * 60 * 24)]
    ring_nf
    norm_num
  · simp only [isOldEnough, decide_eq_false_iff_not]
    push_cast
    rw [div_le_iff₀ (by norm_num : (0:ℚ) < 1000 * 60 * 60 * 24)]
    intro hcon
    nlinarith
  · simp only [isOldEnough, decide_eq_true_eq]
    push_cast
    rw [div_le_iff₀ (by norm_num : (0:ℚ) < 1000 * 60 * 60 * 24)]
    norm_num

/-- Witness for C6: the boundary facts at now 0 and threshold 30 days
(2592000000 ms), including the fractional 29.9-day gap (2583360000 ms). -/
theorem renewalClock_witness :
    (0 : ℤ) ≤ 30 ∧
    ((isOldEnough 0 2592000000 ((30 : ℤ) : ℚ) = true ↔
      ((2592000000 - 0 : ℤ) : ℚ) ≤ ((30 : ℤ) : ℚ) * 86400000) ∧
     isOldEnough 0 (0 + 30 * 86400000) ((30 : ℤ) : ℚ) = true ∧
     isOldEnough 0 (0 + (30 + 1) * 86400000) ((30 : ℤ) : ℚ) = false ∧
     isOldEnough 0 (0 + 2583360000) 30 = true) :=
  ⟨by decide, renewalClock_isDue_boundary 0 2592000000 30 (by decide)⟩

/-- C7: an authorization whose offered challenges contain no dns-01 entry
fails with the no-DNS-challenge error and `present()` is never called —
there is no fallback to any other challenge type. -/
theorem missingDnsChallenge_failsWithoutPresent (env : AuthzStepEnv) (authz : Authorization)
    (h : authz.challenges.find? (fun c => c.type == "dns-01") = none) :
    (processAuthz env authz).result =
      Except.error ("No DNS challenge found for " ++ authz.identifier.value) ∧
    (processAuthz env authz).presentCalls = 0 := by
  simp [processAuthz, h]

/-- Witness for C7: an authorization offering only http-01 fails without
any present call, even though every network step would have succeeded. -/
theorem missingDnsChallenge_witness :
    (processAuthz envAllOk httpOnlyAuthz).result =
      Except.error ("No DNS challenge found for " ++ httpOnlyAuthz.identifier.value) ∧
    (processAuthz envAllOk httpOnlyAuthz).presentCalls = 0 :=
  missingDnsChallenge_failsWithoutPresent envAllOk httpOnlyAuthz rfl

/-- C8 (amended): `present()` and `cleanup()` address the same record
name, equal to `_acme-challenge.` followed by the identifier with the
FIRST occurrence of `.` + zone removed (not an anchored suffix strip); for
the end-to-end scenario (common name example.org, alternative name
www.example.org, zone example.org) the created and deleted record names
are exactly `_acme-challenge.example.org` and `_acme-challenge.www`. -/
theorem challengeRecordNames (zone : String) (authz : Authorization) (keyAuthorization : String) :
    (azureDnsCreateChallenge zone authz keyAuthorization).recordName =
      (azureDnsRemoveChallenge zone authz).recordName ∧
    (azureDnsCreateChallenge zone authz keyAuthorization).recordName =
      "_acme-challenge." ++ strReplaceFirst authz.identifier.value ("." ++ zone) "" ∧
    (orderIdentifiers scenarioReq).map (fun v =>
      (azureDnsCreateChallenge "example.org" ⟨⟨"dns", v⟩, [⟨"dns-01"⟩]⟩ "key").recordName) =
      ["_acme-challenge.example.org", "_acme-challenge.www"] ∧
    (orderIdentifiers scenarioReq).map (fun v =>
      (azureDnsRemoveChallenge "example.org" ⟨⟨"dns", v⟩, [⟨"dns-01"⟩]⟩).recordName) =
      ["_acme-challenge.example.org", "_acme-challenge.www"] :=
  ⟨rfl, rfl, rfl, rfl⟩

/-- Counterexample to C8 as stated: for the identifier
a.example.org.b.example.org in zone example.org the source removes the
first, non-suffix occurrence of `.example.org`, so the record name differs
from the zone-suffix-stripped name the claim describes. -/
theorem recordName_not_suffix_strip :
    authzToRelativeDomain "example.org"
        ⟨⟨"dns", "a.example.org.b.example.org"⟩, [⟨"dns-01"⟩]⟩ =
      "_acme-challenge.a.b.example.org" ∧
    specSuffixStripRecordName "example.org"
        ⟨⟨"dns", "a.example.org.b.example.org"⟩, [⟨"dns-01"⟩]⟩ =
      "_acme-challenge.a.example.org.b" ∧
    ("_acme-challenge.a.b.example.org" : String) ≠ "_acme-challenge.a.example.org.b" :=
  ⟨rfl, rfl, by decide⟩

/-- C9: the listing processes exactly the blobs whose name ends with
`.json` — running it on any catalogue equals running it on the catalogue
restricted to `.json` names, so any other stored document is silently
skipped and can never be parsed or selected. -/
theorem listing_filters_json_suffix (store : AzureOptions → Option CertMetadata)
    (today : Int) (renewDaysThreshold : ℚ) (blobs : List Blob) :
    azureFunc store today renewDaysThreshold blobs =
      azureFunc store today renewDaysThreshold
        (blobs.filter (fun b => strEndsWith b.name ".json")) := by
  induction blobs with
  | nil => rfl
  | cons b rest ih =>
    by_cases h : strEndsWith b.name ".json"
    · have hf : List.filter (fun x => strEndsWith x.name ".json") (b :: rest) =
          b :: List.filter (fun x => strEndsWith x.name ".json") rest :=
        List.filter_cons_of_pos h
      rw [hf, azureFunc_cons, azureFunc_cons, if_pos h, if_pos h, ih]
    · have hf : List.filter (fun x => strEndsWith x.name ".json") (b :: rest) =
          List.filter (fun x => strEndsWith x.name ".json") rest :=
        List.filter_cons_of_neg h
      rw [hf, azureFunc_cons, if_neg h, ih]

/-- C10: the record-name derivation removes only the first occurrence of
`.` + zone, not an anchored suffix — when the identifier equals the zone
nothing is stripped (the pattern is longer than the identifier) and the
name is `_acme-challenge.` followed by the whole zone, and for
a.example.org.b.example.org in zone example.org the first, non-suffix
occurrence is the one removed. -/
theorem zoneStripping_first_occurrence (zone t : String) (cs : List Challenge) :
    authzToRelativeDomain zone ⟨⟨t, zone⟩, cs⟩ = "_acme-challenge." ++ zone ∧
    authzToRelativeDomain "example.org"
        ⟨⟨"dns", "a.example.org.b.example.org"⟩, [⟨"dns-01"⟩]⟩ =
      "_acme-challenge.a.b.example.org" := by
  constructor
  · unfold authzToRelativeDomain strReplaceFirst
    have hlen : zone.data.length < ("." ++ zone).data.length := by
      rw [String.data_append]
      simp
    rw [replaceFirstList_of_longer _ _ _ hlen]
  · rfl

end AzAcme2KeyVault
